import Mathlib

/-!
# Heketi Go client: request signing and job polling

A shallow embedding of `client/api/go-client/client.go`.

* `setToken` builds a JSON Web Token for a request and stores it in the
  `Authorization` header of that request.
* `checkRedirect` is the hook the HTTP client calls before following a redirect.
* `waitForResponseWithTimer` polls the location of an asynchronous job until the
  server stops reporting it as pending.

The Go code runs against the wall clock, the network, the `net/url` parser and
the JWT signing primitive.  These are collected in `Env`; every theorem
quantifies over all of them.  Effects are threaded explicitly through a `World`
value that counts clock reads and `client.Do` calls and logs requests and sleeps.
-/

namespace Heketi

/-! ## SHA-256 and hexadecimal encoding (`crypto/sha256`, `encoding/hex`) -/

/-- Round constants of SHA-256 (FIPS 180-4, section 4.2.2). -/
def sha256K : List Nat :=
  [0x428a2f98, 0x71374491, 0xb5c0fbcf, 0xe9b5dba5, 0x3956c25b, 0x59f111f1, 0x923f82a4, 0xab1c5ed5,
   0xd807aa98, 0x12835b01, 0x243185be, 0x550c7dc3, 0x72be5d74, 0x80deb1fe, 0x9bdc06a7, 0xc19bf174,
   0xe49b69c1, 0xefbe4786, 0x0fc19dc6, 0x240ca1cc, 0x2de92c6f, 0x4a7484aa, 0x5cb0a9dc, 0x76f988da,
   0x983e5152, 0xa831c66d, 0xb00327c8, 0xbf597fc7, 0xc6e00bf3, 0xd5a79147, 0x06ca6351, 0x14292967,
   0x27b70a85, 0x2e1b2138, 0x4d2c6dfc, 0x53380d13, 0x650a7354, 0x766a0abb, 0x81c2c92e, 0x92722c85,
   0xa2bfe8a1, 0xa81a664b, 0xc24b8b70, 0xc76c51a3, 0xd192e819, 0xd6990624, 0xf40e3585, 0x106aa070,
   0x19a4c116, 0x1e376c08, 0x2748774c, 0x34b0bcb5, 0x391c0cb3, 0x4ed8aa4a, 0x5b9cca4f, 0x682e6ff3,
   0x748f82ee, 0x78a5636f, 0x84c87814, 0x8cc70208, 0x90befffa, 0xa4506ceb, 0xbef9a3f7, 0xc67178f2]

/-- Initial hash value of SHA-256 (FIPS 180-4, section 5.3.3). -/
def sha256Init : List Nat :=
  [0x6a09e667, 0xbb67ae85, 0x3c6ef372, 0xa54ff53a, 0x510e527f, 0x9b05688c, 0x1f83d9ab, 0x5be0cd19]

/-- Reduction of a natural number to a 32-bit word. -/
def word32 (x : Nat) : Nat := x % 2 ^ 32

/-- Right rotation of a 32-bit word. -/
def rotr32 (n x : Nat) : Nat := word32 ((x >>> n) ||| (x <<< (32 - n)))

/-- The function Σ0 of FIPS 180-4, section 4.1.2. -/
def bigSigma0 (x : Nat) : Nat := rotr32 2 x ^^^ rotr32 13 x ^^^ rotr32 22 x

/-- The function Σ1 of FIPS 180-4, section 4.1.2. -/
def bigSigma1 (x : Nat) : Nat := rotr32 6 x ^^^ rotr32 11 x ^^^ rotr32 25 x

/-- The function σ0 of FIPS 180-4, section 4.1.2. -/
def smallSigma0 (x : Nat) : Nat := rotr32 7 x ^^^ rotr32 18 x ^^^ (x >>> 3)

/-- The function σ1 of FIPS 180-4, section 4.1.2. -/
def smallSigma1 (x : Nat) : Nat := rotr32 17 x ^^^ rotr32 19 x ^^^ (x >>> 10)

/-- The function Ch of FIPS 180-4: bits of `y` where `x` is set, bits of `z` elsewhere. -/
def shaCh (x y z : Nat) : Nat := (x &&& y) ^^^ ((x ^^^ (2 ^ 32 - 1)) &&& z)

/-- The function Maj of FIPS 180-4: bitwise majority. -/
def shaMaj (x y z : Nat) : Nat := (x &&& y) ^^^ (x &&& z) ^^^ (y &&& z)

/-- Big-endian encoding of a number on the given count of bytes. -/
def bytesBE : Nat → Nat → List Nat
  | 0, _ => []
  | n + 1, x => (x / 256 ^ n) % 256 :: bytesBE n x

/-- Message padding: the bit 1, zero bits up to 56 modulo 64 bytes, then the bit length on 8 bytes. -/
def sha256Pad (msg : List Nat) : List Nat :=
  msg ++ 0x80 :: List.replicate ((119 - msg.length % 64) % 64) 0 ++ bytesBE 8 (8 * msg.length)

/-- Cut a byte string into big-endian 32-bit words (the fuel bounds the word count). -/
def wordsBE : Nat → List Nat → List Nat
  | 0, _ => []
  | n + 1, a :: b :: c :: d :: rest => (((a * 256 + b) * 256 + c) * 256 + d) :: wordsBE n rest
  | _ + 1, _ => []

/-- Extend the message schedule by the given count of words. -/
def sha256Schedule : Nat → List Nat → List Nat
  | 0, w => w
  | n + 1, w =>
    let t := w.length
    sha256Schedule n (w ++ [word32 (smallSigma1 (w.getD (t - 2) 0) + w.getD (t - 7) 0
      + smallSigma0 (w.getD (t - 15) 0) + w.getD (t - 16) 0)])

/-- One round of the compression function on the working variables. -/
def sha256Round (v : List Nat) (kw : Nat × Nat) : List Nat :=
  match v with
  | [a, b, c, d, e, f, g, h] =>
    let t1 := h + bigSigma1 e + shaCh e f g + kw.1 + kw.2
    let t2 := bigSigma0 a + shaMaj a b c
    [word32 (t1 + t2), a, b, c, word32 (d + t1), e, f, g]
  | _ => v

/-- Compression of one 16-word block into the chaining value. -/
def sha256Block (hv : List Nat) (block : List Nat) : List Nat :=
  let w := sha256Schedule 48 block
  let v := (sha256K.zip w).foldl sha256Round hv
  List.zipWith (fun x y => word32 (x + y)) hv v

/-- Iterate the compression over the 16-word blocks of the padded message. -/
def sha256Blocks : Nat → List Nat → List Nat → List Nat
  | 0, hv, _ => hv
  | n + 1, hv, ws => sha256Blocks n (sha256Block hv (ws.take 16)) (ws.drop 16)

/-- SHA-256 digest (32 bytes) of a byte string. -/
def sha256 (msg : List Nat) : List Nat :=
  let p := sha256Pad msg
  let ws := wordsBE (p.length / 4) p
  (sha256Blocks (p.length / 64) sha256Init ws).flatMap (bytesBE 4)

/-- The hexadecimal digit of a value below 16, in lower case. -/
def hexDigit (n : Nat) : Char := "0123456789abcdef".toList.getD n '0'

/-- Lowercase hexadecimal encoding, two digits per byte (encoding/hex EncodeToString). -/
def hexEncodeToString (bs : List Nat) : String :=
  String.mk (bs.flatMap fun b => [hexDigit (b / 16 % 16), hexDigit (b % 16)])

/-- Bytes of a string, as Go's conversion to a byte slice gives them. -/
def stringBytes (s : String) : List Nat :=
  s.toList.flatMap fun c => (String.utf8EncodeChar c).map UInt8.toNat

/-! ## Data model (`net/http`, `net/url`, `time`, `jwt-go`) -/

/-- A Go `error` value, identified with its message. -/
abbrev Error := String

deriving instance DecidableEq for Except

/-- Go's `time.Duration`: a count of nanoseconds. -/
abbrev Duration := Int

/-- The constant `time.Second`. -/
def Second : Duration := 1000000000

/-- The constant `time.Minute`. -/
def Minute : Duration := 60 * Second

/-- An instant of the wall clock, as its count of nanoseconds since the Unix epoch.
Wall-clock instants stay far inside the range of Go's 64-bit second counter, so no
wrap-around is modelled. -/
structure Time where
  unixNano : Int
deriving DecidableEq, Repr

/-- The method `Time.Unix`: whole seconds since the epoch, rounded down. -/
def Time.Unix (t : Time) : Int := t.unixNano / 1000000000

/-- The method `Time.Add`. -/
def Time.Add (t : Time) (d : Duration) : Time :=
  { unixNano := t.unixNano + d }

/-- The fields of `url.URL` the client touches. -/
structure URL where
  Scheme : String
  Host : String
  Path : String
  RawQuery : String
  Fragment : String
deriving DecidableEq, Repr

/-- Go's `http.Header`, a map from canonical keys to value lists, as an association list
read by first match. -/
abbrev Header := List (String × List String)

/-- Bytes allowed in a header field name (RFC 7230 token characters). -/
def validHeaderFieldByte (c : Char) : Bool :=
  c.isAlphanum || "!#$%&*+-.^_|~".toList.contains c || c.toNat = 39 || c.toNat = 96

/-- Letter case of the canonical form: upper case at the start and after a hyphen,
lower case elsewhere. -/
def canonicalCase : Bool → List Char → List Char
  | _, [] => []
  | upper, c :: cs =>
    (if upper then c.toUpper else c.toLower) :: canonicalCase (c = '-') cs

/-- The function `textproto.CanonicalMIMEHeaderKey`: a key with a byte that is not valid in
a field name is returned as it is. -/
def CanonicalMIMEHeaderKey (s : String) : String :=
  if s.toList.all validHeaderFieldByte then String.mk (canonicalCase true s.toList) else s

/-- The method `Header.Get`: first value stored under the canonical key, or the empty string. -/
def Header.Get (h : Header) (key : String) : String :=
  match h.lookup (CanonicalMIMEHeaderKey key) with
  | some (v :: _) => v
  | _ => ""

/-- The method `Header.Set`: the canonical key is bound to the single given value. -/
def Header.Set (h : Header) (key value : String) : Header :=
  (CanonicalMIMEHeaderKey key, [value]) :: h.filter (fun kv => kv.1 != CanonicalMIMEHeaderKey key)

/-- The fields of `http.Request` the client touches. -/
structure Request where
  Method : String
  URL : URL
  Header : Header
  Body : Option (List Nat)
  Host : String
deriving DecidableEq, Repr

/-- The fields of `http.Response` the client touches. -/
structure Response where
  StatusCode : Int
  Header : Header
  Body : List Nat
  Request : Option Request
deriving DecidableEq, Repr

/-- The constant `http.StatusOK`. -/
def StatusOK : Int := 200

/-- The error `http.ErrNoLocation`. -/
def ErrNoLocation : Error := "http: no Location header in response"

/-- A value stored under a claim of a token. -/
inductive ClaimValue where
  | str (s : String)
  | int (n : Int)
deriving DecidableEq, Repr

/-- A `jwt.Token` before signing: the algorithm, the header and the claims map. -/
structure Token where
  Method : String
  Header : List (String × String)
  Claims : List (String × ClaimValue)
deriving DecidableEq, Repr

/-- The function `jwt.New`. -/
def jwtNew (alg : String) : Token :=
  { Method := alg, Header := [("typ", "JWT"), ("alg", alg)], Claims := [] }

/-- The assignment `token.Claims[key] = v`. -/
def Token.setClaim (t : Token) (key : String) (v : ClaimValue) : Token :=
  { t with Claims := (key, v) :: t.Claims.filter (fun kv => kv.1 != key) }

/-- The read `token.Claims[key]`. -/
def Token.claim (t : Token) (key : String) : Option ClaimValue :=
  t.Claims.lookup key

/-- Client object. -/
structure Client where
  host : String
  key : String
  user : String
deriving DecidableEq, Repr

/-- Creates a new client to access a Heketi server. -/
def NewClient (host user key : String) : Client :=
  { host := host, key := key, user := user }

/-- Create a client to access a Heketi server without authentication enabled. -/
def NewClientNoAuth (host : String) : Client :=
  NewClient host "" ""

/-! ## The outside world -/

/-- What the client observes of its surroundings and of the libraries it calls.
* `now n` is the value of the read number `n` of the wall clock (`time.Now`);
* `roundTrip n req` is the outcome of the call number `n` of `client.Do`, sent `req`
  (redirect hops the HTTP client follows on its own are part of that outcome);
* `signedString` is `Token.SignedString` of jwt-go, given the key bytes;
* `urlParse`, `urlResolve`, `urlString` are `url.Parse`, `URL.Parse`, `URL.String`;
* `getErrorFromResponse` is `utils.GetErrorFromResponse`, which turns the body of a
  response into an error. -/
structure Env where
  now : Nat → Time
  roundTrip : Nat → Request → Except Error Response
  signedString : Token → List Nat → Except Error String
  urlParse : String → Except Error URL
  urlResolve : URL → String → Except Error URL
  urlString : URL → String
  getErrorFromResponse : Response → Error

/-- An observable effect of the client. -/
inductive Event where
  | roundTrip (req : Request) (outcome : Except Error Response)
  | sleep (d : Duration)
deriving DecidableEq

/-- Effect state: clock reads so far, `client.Do` calls so far, and the log of effects
in the order they happened. -/
structure World where
  clockReads : Nat
  doCalls : Nat
  trace : List Event
deriving DecidableEq

/-- The call `time.Now()`. -/
def timeNow (env : Env) (w : World) : Time × World :=
  (env.now w.clockReads, { w with clockReads := w.clockReads + 1 })

/-- The call `time.Sleep(d)`. -/
def timeSleep (d : Duration) (w : World) : World :=
  { w with trace := w.trace ++ [Event.sleep d] }

/-- The call `client.Do(req)`. -/
def clientDo (env : Env) (req : Request) (w : World) : Except Error Response × World :=
  let outcome := env.roundTrip w.doCalls req
  (outcome, { w with doCalls := w.doCalls + 1, trace := w.trace ++ [Event.roundTrip req outcome] })

/-- The method `Response.Location`: the `Location` header, resolved against the URL of the
request that obtained the response when there is one. -/
def Response.Location (env : Env) (r : Response) : Except Error URL :=
  let lv := r.Header.Get "Location"
  if lv = "" then .error ErrNoLocation
  else match r.Request with
    | some req => env.urlResolve req.URL lv
    | none => env.urlParse lv

/-- The function `http.NewRequest` for a request without body: it fails when the URL does
not parse.  The method check of later Go versions accepts `GET`, the only method the
client passes. -/
def NewRequest (env : Env) (method urlStr : String) : Except Error Request :=
  match env.urlParse urlStr with
  | .error err => .error err
  | .ok u => .ok { Method := method, URL := u, Header := [], Body := none, Host := u.Host }

/-! ## The client -/

/-- String hashed into the `qsh` claim: `r.Method + "&" + r.URL.Path`. -/
def qshstring (r : Request) : String :=
  r.Method ++ "&" ++ r.URL.Path

/-- First part of `setToken` (up to the `qsh` claim): the token with its four claims.
The clock is read once for `iat` and once more for `exp`. -/
def setTokenClaims (env : Env) (c : Client) (r : Request) (w : World) : Token × World :=
  let token := jwtNew "HS256"
  -- Set issuer
  let token := token.setClaim "iss" (.str c.user)
  -- Set issued at time
  let (t1, w) := timeNow env w
  let token := token.setClaim "iat" (.int t1.Unix)
  -- Set expiration
  let (t2, w) := timeNow env w
  let token := token.setClaim "exp" (.int (t2.Add (Minute * 5)).Unix)
  -- Set qsh hash
  let hash := sha256 (stringBytes (qshstring r))
  let token := token.setClaim "qsh" (.str (hexEncodeToString hash))
  (token, w)

/-- Create JSON Web Token: returns the error of Go's `setToken` (`none` for `nil`), the
request as the call leaves it, and the world. -/
def setToken (env : Env) (c : Client) (r : Request) (w : World) :
    Option Error × Request × World :=
  let (token, w) := setTokenClaims env c r w
  -- Sign the token
  match env.signedString token (stringBytes c.key) with
  | .error err => (some err, r, w)
  | .ok signedtoken =>
    -- Save it in the header
    (none, { r with Header := r.Header.Set "Authorization" ("bearer " ++ signedtoken) }, w)

/-- This function is called by the http package if it detects that it needs to be
redirected.  Here we create a new token before it makes the next request. -/
def checkRedirect (env : Env) (c : Client) (req : Request) (_via : List Request) (w : World) :
    Option Error × Request × World :=
  setToken env c req w

/-- Outcome of one pass through the loop body. -/
inductive Step where
  | next (w : World)
  | done (res : Option Response × Option Error) (w : World)
deriving DecidableEq

/-- First half of the loop body of `waitForResponseWithTimer`: create the request, set the
token, wait for the response. -/
def pollFetch (env : Env) (c : Client) (location : URL) (w : World) :
    Except Error Response × World :=
  -- Create request
  match NewRequest env "GET" (env.urlString location) with
  | .error err => (.error err, w)
  | .ok req =>
    -- Set token
    match setToken env c req w with
    | (some err, _, w) => (.error err, w)
    | (none, req, w) =>
      -- Wait for response
      clientDo env req w

/-- The loop body of `waitForResponseWithTimer`. -/
def pollOnce (env : Env) (c : Client) (location : URL) (waitTime : Duration) (w : World) :
    Step :=
  match pollFetch env c location w with
  | (.error err, w) => .done (none, some err) w
  | (.ok r, w) =>
    -- Check if the request is pending
    if r.Header.Get "X-Pending" = "true" then
      if r.StatusCode ≠ StatusOK then
        .done (none, some (env.getErrorFromResponse r)) w
      else
        .next (timeSleep waitTime w)
    else
      .done (some r, none) w

/-- The loop `for { ... }` of `waitForResponseWithTimer`, run for at most `fuel` passes;
`none` when the passes are used up before the loop returns. -/
def pollLoop (env : Env) (c : Client) (location : URL) (waitTime : Duration) :
    Nat → World → Option ((Option Response × Option Error) × World)
  | 0, _ => none
  | fuel + 1, w =>
    match pollOnce env c location waitTime w with
    | .done res w => some (res, w)
    | .next w => pollLoop env c location waitTime fuel w

/-- Wait for the job to finish, waiting waitTime on every loop. -/
def waitForResponseWithTimer (env : Env) (c : Client) (r : Response) (waitTime : Duration)
    (fuel : Nat) (w : World) : Option ((Option Response × Option Error) × World) :=
  -- Get temp resource
  match r.Location env with
  | .error err => some ((none, some err), w)
  | .ok location => pollLoop env c location waitTime fuel w

/-- World at the start of pass `k + 1` of the loop: defined when the first `k` passes all
ended in the sleep. -/
def loopState (env : Env) (c : Client) (location : URL) (waitTime : Duration) :
    Nat → World → Option World
  | 0, w => some w
  | k + 1, w =>
    match pollOnce env c location waitTime w with
    | .next w => loopState env c location waitTime k w
    | .done _ _ => none

/-! ## Counting effects in a log -/

/-- Number of `client.Do` calls in a log. -/
def sentRequests (tr : List Event) : Nat :=
  tr.countP fun e => match e with
    | .roundTrip _ _ => true
    | .sleep _ => false

/-- Number of `client.Do` calls in a log that returned a response. -/
def completedRequests (tr : List Event) : Nat :=
  tr.countP fun e => match e with
    | .roundTrip _ (.ok _) => true
    | _ => false

/-- Number of sleeps in a log. -/
def sleeps (tr : List Event) : Nat :=
  tr.countP fun e => match e with
    | .sleep _ => true
    | .roundTrip _ _ => false

/-- A status of the 2xx class. -/
def isSuccessStatus (code : Int) : Prop := 200 ≤ code ∧ code ≤ 299

instance (code : Int) : Decidable (isSuccessStatus code) := by
  unfold isSuccessStatus; infer_instance

/-- Every request of a log is a `GET` whose URL is parsed from the string of the given
location. -/
def requestsGoTo (env : Env) (location : URL) (evs : List Event) : Prop :=
  ∀ req outcome, Event.roundTrip req outcome ∈ evs →
    req.Method = "GET" ∧ env.urlParse (env.urlString location) = .ok req.URL

/-! ## Concrete surroundings used to exercise the definitions -/

/-- A clock whose first read falls 100 ns before a second boundary and whose later reads
fall 100 ns after it. -/
def boundaryClock : Nat → Time
  | 0 => { unixNano := 1445999999999999900 }
  | _ => { unixNano := 1446000000000000100 }

/-- A clock that advances by one millisecond per read. -/
def steadyClock (n : Nat) : Time :=
  { unixNano := 1446000000000000000 + 1000000 * n }

/-- The URL of the job resource `http://x/jobs/<id>`. -/
def jobURL (id : String) : URL :=
  { Scheme := "http", Host := "x", Path := "/jobs/" ++ id, RawQuery := "", Fragment := "" }

/-- A URL parser that knows the two job locations used below. -/
def demoParse (s : String) : Except Error URL :=
  if s = "http://x/jobs/42" then .ok (jobURL "42")
  else if s = "http://x/jobs/43" then .ok (jobURL "43")
  else .error ("parse " ++ s ++ ": unsupported")

/-- Surroundings with the given clock, signing outcome and scripted `client.Do` outcomes;
calls beyond the script are refused by the network. -/
def demoEnv (clock : Nat → Time) (signed : Except Error String)
    (script : List (Except Error Response)) : Env :=
  { now := clock
    roundTrip := fun n _ => script.getD n (.error "dial tcp: connection refused")
    signedString := fun _ _ => signed
    urlParse := demoParse
    urlResolve := fun _ ref => demoParse ref
    urlString := fun u => u.Scheme ++ "://" ++ u.Host ++ u.Path
    getErrorFromResponse := fun r => String.mk (r.Body.map Char.ofNat) }

/-- The identity of the scenarios: host `http://x`, user `u`, secret `s`. -/
def demoClient : Client := NewClient "http://x" "u" "s"

/-- A response with the given status, headers and body. -/
def mkResponse (code : Int) (h : Header) (body : String) : Response :=
  { StatusCode := code, Header := h, Body := stringBytes body, Request := none }

/-- A request with the given method and path on host `x`, carrying one header. -/
def mkRequest (method path : String) : Request :=
  { Method := method
    URL := { Scheme := "http", Host := "x", Path := path, RawQuery := "", Fragment := "" }
    Header := [("Accept", ["application/json"]), ("Authorization", ["bearer old"])]
    Body := some (stringBytes "payload")
    Host := "x" }

/-- The world before anything happened. -/
def world0 : World := { clockReads := 0, doCalls := 0, trace := [] }

/-- The response that starts the scenarios: `202 Accepted` with the job location and
no pending indicator. -/
def acceptedResponse : Response :=
  mkResponse 202 [("Location", ["http://x/jobs/42"])] ""

/-- A poll response: still pending, status 200. -/
def pendingResponse : Response :=
  mkResponse 200 [("X-Pending", ["true"])] ""

/-- A poll response: still pending, status 200, naming another location. -/
def pendingElsewhere : Response :=
  mkResponse 200 [("X-Pending", ["true"]), ("Location", ["http://x/jobs/43"])] ""

/-- A poll response: pending indicator with status 202. -/
def pendingAccepted : Response :=
  mkResponse 202 [("X-Pending", ["true"])] "boom"

/-- A poll response: pending indicator with status 500. -/
def pendingFailed : Response :=
  mkResponse 500 [("X-Pending", ["true"])] "boom"

/-- A poll response: the job is over. -/
def finishedResponse : Response :=
  mkResponse 200 [("X-Pending", ["false"])] "done"

/-- The polling request as `client.Do` sees it: `GET http://x/jobs/42`, signed. -/
def signedPoll : Request :=
  { Method := "GET", URL := jobURL "42", Header := [("Authorization", ["bearer h.c.s"])],
    Body := none, Host := "x" }

/-- The polling request as `http.NewRequest` builds it, before signing. -/
def unsignedPoll : Request :=
  { Method := "GET", URL := jobURL "42", Header := [], Body := none, Host := "x" }

/-- The world once a pass that started in `w` got the given outcome from `client.Do`. -/
def afterPoll (w : World) (outcome : Except Error Response) : World :=
  { clockReads := w.clockReads + 2, doCalls := w.doCalls + 1,
    trace := w.trace ++ [Event.roundTrip signedPoll outcome] }

/-- Surroundings of the polling scenarios: steady clock, signing succeeds, scripted network. -/
def pollEnv (script : List (Except Error Response)) : Env :=
  demoEnv steadyClock (.ok "h.c.s") script

/-! ## Auxiliary facts -/

theorem canonical_Authorization : CanonicalMIMEHeaderKey "Authorization" = "Authorization" := by
  decide

theorem canonical_XPending : CanonicalMIMEHeaderKey "X-Pending" = "X-Pending" := by
  decide

theorem canonical_Location : CanonicalMIMEHeaderKey "Location" = "Location" := by
  decide

/-- Removing the entries of one key does not change what another key is bound to. -/
theorem lookup_filter_ne {β : Type} (k k2 : String) (hne : k2 ≠ k) (h : List (String × β)) :
    (h.filter (fun kv => kv.1 != k)).lookup k2 = h.lookup k2 := by
  induction h with
  | nil => rfl
  | cons kv rest ih =>
    obtain ⟨a, b⟩ := kv
    by_cases hak : a = k
    · subst hak
      have h1 : (k2 == a) = false := by simpa using hne
      simp [List.filter, List.lookup, h1, ih]
    · have h2 : (a != k) = true := by simpa using hak
      by_cases hk2 : k2 = a
      · subst hk2
        simp [List.filter, List.lookup, h2]
      · have h3 : (k2 == a) = false := by simpa using hk2
        simp [List.filter, List.lookup, h2, h3, ih]

/-- After `Set`, the key is bound to exactly the one value given. -/
theorem Header.lookup_Set_same (h : Header) (key value : String) :
    (h.Set key value).lookup (CanonicalMIMEHeaderKey key) = some [value] := by
  simp [Header.Set, List.lookup]

/-- `Set` leaves every other key as it was. -/
theorem Header.lookup_Set_other (h : Header) (key value k2 : String)
    (hne : k2 ≠ CanonicalMIMEHeaderKey key) :
    (h.Set key value).lookup k2 = h.lookup k2 := by
  have h1 : (k2 == CanonicalMIMEHeaderKey key) = false := by simpa using hne
  simp only [Header.Set, List.lookup, h1]
  exact lookup_filter_ne _ _ hne h

theorem Header.Get_Set_same (h : Header) (key value : String) :
    (h.Set key value).Get key = value := by
  simp [Header.Get, Header.lookup_Set_same]

/-- Five minutes later the clock shows exactly 300 more whole seconds. -/
theorem Time.Unix_Add_five_minutes (t : Time) : (t.Add (Minute * 5)).Unix = t.Unix + 300 := by
  simp only [Time.Add, Time.Unix, Minute, Second]
  omega

theorem setTokenClaims_world (env : Env) (c : Client) (r : Request) (w : World) :
    (setTokenClaims env c r w).2 = { w with clockReads := w.clockReads + 2 } := by
  simp [setTokenClaims, timeNow]

theorem setTokenClaims_qsh (env : Env) (c : Client) (r : Request) (w : World) :
    (setTokenClaims env c r w).1.claim "qsh"
      = some (.str (hexEncodeToString (sha256 (stringBytes (r.Method ++ "&" ++ r.URL.Path))))) := by
  simp [setTokenClaims, Token.claim, Token.setClaim, timeNow, qshstring, List.lookup]

theorem setTokenClaims_iat (env : Env) (c : Client) (r : Request) (w : World) :
    (setTokenClaims env c r w).1.claim "iat" = some (.int (env.now w.clockReads).Unix) := by
  simp [setTokenClaims, Token.claim, Token.setClaim, timeNow, List.lookup, jwtNew, List.filter]

theorem setTokenClaims_exp (env : Env) (c : Client) (r : Request) (w : World) :
    (setTokenClaims env c r w).1.claim "exp"
      = some (.int ((env.now (w.clockReads + 1)).Unix + 300)) := by
  simp [setTokenClaims, Token.claim, Token.setClaim, timeNow, List.lookup, jwtNew, List.filter,
    Time.Unix_Add_five_minutes]

/-- The two ways `setToken` can end, by the outcome of the signing primitive. -/
theorem setToken_cases (env : Env) (c : Client) (r : Request) (w : World) :
    (∃ signed, env.signedString (setTokenClaims env c r w).1 (stringBytes c.key) = .ok signed ∧
        setToken env c r w = (none,
          { r with Header := r.Header.Set "Authorization" ("bearer " ++ signed) },
          { w with clockReads := w.clockReads + 2 })) ∨
    (∃ err, env.signedString (setTokenClaims env c r w).1 (stringBytes c.key) = .error err ∧
        setToken env c r w = (some err, r, { w with clockReads := w.clockReads + 2 })) := by
  cases hs : env.signedString (setTokenClaims env c r w).1 (stringBytes c.key) with
  | ok signed =>
    left
    refine ⟨signed, rfl, ?_⟩
    simp only [setToken, hs, setTokenClaims_world]
  | error err =>
    right
    refine ⟨err, rfl, ?_⟩
    simp only [setToken, hs, setTokenClaims_world]

/-- A separator that occurs in neither left part cuts a list in one way only. -/
theorem append_sep_inj {α : Type} (sep : α) :
    ∀ (a a2 b b2 : List α), sep ∉ a → sep ∉ a2 → a ++ sep :: b = a2 ++ sep :: b2 →
      a = a2 ∧ b = b2
  | [], [], b, b2, _, _, h => by simpa using h
  | [], y :: ys, b, b2, _, h2, h => by
    simp only [List.nil_append, List.cons_append, List.cons.injEq] at h
    exact absurd (h.1 ▸ List.mem_cons_self y ys) h2
  | x :: xs, [], b, b2, h1, _, h => by
    simp only [List.nil_append, List.cons_append, List.cons.injEq] at h
    exact absurd (h.1 ▸ List.mem_cons_self x xs) h1
  | x :: xs, y :: ys, b, b2, h1, h2, h => by
    simp only [List.cons_append, List.cons.injEq] at h
    have ih := append_sep_inj sep xs ys b b2
      (fun hm => h1 (List.mem_cons_of_mem _ hm)) (fun hm => h2 (List.mem_cons_of_mem _ hm)) h.2
    exact ⟨by rw [h.1, ih.1], ih.2⟩

/-! ## Facts about one pass of the polling loop -/

theorem NewRequest_ok (env : Env) (method urlStr : String) (req : Request)
    (h : NewRequest env method urlStr = .ok req) :
    req.Method = method ∧ env.urlParse urlStr = .ok req.URL ∧ req.Header = [] := by
  unfold NewRequest at h
  cases hp : env.urlParse urlStr with
  | error err => simp [hp] at h
  | ok u =>
    simp only [hp, Except.ok.injEq] at h
    subst h
    exact ⟨rfl, rfl, rfl⟩

/-- The three ways the first half of a pass can go: the request cannot be built, it
cannot be signed, or it is signed and handed to `client.Do`. -/
theorem pollFetch_cases (env : Env) (c : Client) (location : URL) (w : World) :
    (∃ err, NewRequest env "GET" (env.urlString location) = .error err ∧
        pollFetch env c location w = (.error err, w)) ∨
    (∃ req, NewRequest env "GET" (env.urlString location) = .ok req ∧
      ((∃ err, setToken env c req w = (some err, req, { w with clockReads := w.clockReads + 2 }) ∧
          pollFetch env c location w = (.error err, { w with clockReads := w.clockReads + 2 })) ∨
       (∃ req1, setToken env c req w = (none, req1, { w with clockReads := w.clockReads + 2 }) ∧
          req1.Method = req.Method ∧ req1.URL = req.URL ∧
          pollFetch env c location w
            = clientDo env req1 { w with clockReads := w.clockReads + 2 }))) := by
  cases hN : NewRequest env "GET" (env.urlString location) with
  | error err =>
    left
    exact ⟨err, rfl, by simp [pollFetch, hN]⟩
  | ok req =>
    right
    refine ⟨req, rfl, ?_⟩
    rcases setToken_cases env c req w with ⟨signed, _, ht⟩ | ⟨err, _, ht⟩
    · right
      exact ⟨_, ht, rfl, rfl, by simp [pollFetch, hN, ht]⟩
    · left
      exact ⟨err, ht, by simp [pollFetch, hN, ht]⟩

/-- A pass that obtains a response has sent exactly one `GET` to the location, and the
receipt of that response is the last entry of its log. -/
theorem pollFetch_ok (env : Env) (c : Client) (location : URL) (w w2 : World) (r : Response)
    (h : pollFetch env c location w = (.ok r, w2)) :
    ∃ req, req.Method = "GET" ∧ env.urlParse (env.urlString location) = .ok req.URL ∧
      env.roundTrip w.doCalls req = .ok r ∧
      w2 = { clockReads := w.clockReads + 2, doCalls := w.doCalls + 1,
             trace := w.trace ++ [Event.roundTrip req (.ok r)] } := by
  rcases pollFetch_cases env c location w with ⟨err, _, hf⟩ | ⟨req, hN, ⟨err, _, hf⟩ | ⟨req1, _, hm, hu, hf⟩⟩
  · rw [hf] at h; simp at h
  · rw [hf] at h; simp at h
  · rw [hf] at h
    simp only [clientDo, Prod.mk.injEq] at h
    obtain ⟨hr, hw⟩ := h
    have hreq := NewRequest_ok env "GET" _ req hN
    refine ⟨req1, hm.trans hreq.1, hu ▸ hreq.2.1, hr, ?_⟩
    rw [← hw, hr]

/-- A pass that fails before a response arrives adds neither a completed request nor a
sleep to the log; it adds the failed call when the failure is in sending. -/
theorem pollFetch_error (env : Env) (c : Client) (location : URL) (w w2 : World) (err : Error)
    (h : pollFetch env c location w = (.error err, w2)) :
    w2.trace = w.trace ∨ ∃ req, w2.trace = w.trace ++ [Event.roundTrip req (.error err)] := by
  rcases pollFetch_cases env c location w with ⟨e, _, hf⟩ | ⟨req, hN, ⟨e, _, hf⟩ | ⟨req1, _, hm, hu, hf⟩⟩
  · rw [hf] at h; simp only [Prod.mk.injEq] at h; left; rw [← h.2]
  · rw [hf] at h; simp only [Prod.mk.injEq] at h; left; rw [← h.2]
  · rw [hf] at h
    simp only [clientDo, Prod.mk.injEq] at h
    right
    refine ⟨req1, ?_⟩
    rw [← h.2, h.1]

theorem sentRequests_append (a b : List Event) :
    sentRequests (a ++ b) = sentRequests a + sentRequests b := by
  simp [sentRequests, List.countP_append]

theorem completedRequests_append (a b : List Event) :
    completedRequests (a ++ b) = completedRequests a + completedRequests b := by
  simp [completedRequests, List.countP_append]

theorem sleeps_append (a b : List Event) : sleeps (a ++ b) = sleeps a + sleeps b := by
  simp [sleeps, List.countP_append]

/-- A pass continues the loop only after a pending response with status 200, and then it
has slept once. -/
theorem pollOnce_next (env : Env) (c : Client) (location : URL) (waitTime : Duration)
    (w w3 : World) (h : pollOnce env c location waitTime w = .next w3) :
    ∃ r w2, pollFetch env c location w = (.ok r, w2) ∧ r.Header.Get "X-Pending" = "true" ∧
      r.StatusCode = StatusOK ∧ w3 = timeSleep waitTime w2 := by
  unfold pollOnce at h
  rcases hf : pollFetch env c location w with ⟨res, w2⟩
  rw [hf] at h
  cases res with
  | error err => simp at h
  | ok r =>
    simp only at h
    by_cases hp : r.Header.Get "X-Pending" = "true"
    · by_cases hs : r.StatusCode = StatusOK
      · simp only [hp, hs, if_true, ne_eq, not_true_eq_false, if_false, Step.next.injEq] at h
        exact ⟨r, w2, rfl, hp, hs, h.symm⟩
      · simp [hp, hs] at h
    · simp [hp] at h

/-- Each continuing pass adds one sent and completed request and one sleep. -/
theorem pollOnce_next_counts (env : Env) (c : Client) (location : URL) (waitTime : Duration)
    (w w3 : World) (h : pollOnce env c location waitTime w = .next w3) :
    sentRequests w3.trace = sentRequests w.trace + 1 ∧
    completedRequests w3.trace = completedRequests w.trace + 1 ∧
    sleeps w3.trace = sleeps w.trace + 1 ∧ w3.doCalls = w.doCalls + 1 := by
  obtain ⟨r, w2, hf, _, _, hw3⟩ := pollOnce_next env c location waitTime w w3 h
  obtain ⟨req, _, _, _, hw2⟩ := pollFetch_ok env c location w w2 r hf
  subst hw3 hw2
  simp [timeSleep, sentRequests, completedRequests, sleeps, List.countP_append]

/-- After `k` continuing passes the log holds `k` more requests, all completed, and `k`
more sleeps. -/
theorem loopState_counts (env : Env) (c : Client) (location : URL) (waitTime : Duration) :
    ∀ (k : Nat) (w wk : World), loopState env c location waitTime k w = some wk →
      sentRequests wk.trace = sentRequests w.trace + k ∧
      completedRequests wk.trace = completedRequests w.trace + k ∧
      sleeps wk.trace = sleeps w.trace + k ∧ wk.doCalls = w.doCalls + k
  | 0, w, wk, h => by
    simp only [loopState, Option.some.injEq] at h
    subst h
    simp
  | k + 1, w, wk, h => by
    simp only [loopState] at h
    cases hp : pollOnce env c location waitTime w with
    | done res w1 => simp [hp] at h
    | next w1 =>
      simp only [hp] at h
      have h1 := pollOnce_next_counts env c location waitTime w w1 hp
      have h2 := loopState_counts env c location waitTime k w1 wk h
      omega

/-- When pass `k + 1` ends the loop, the loop returns what that pass returns, for every
fuel above `k`. -/
theorem pollLoop_of_loopState (env : Env) (c : Client) (location : URL) (waitTime : Duration) :
    ∀ (k : Nat) (w wk wf : World) (res : Option Response × Option Error),
      loopState env c location waitTime k w = some wk →
      pollOnce env c location waitTime wk = .done res wf →
      ∀ fuel, k < fuel → pollLoop env c location waitTime fuel w = some (res, wf)
  | 0, w, wk, wf, res, hk, hd, fuel, hfuel => by
    simp only [loopState, Option.some.injEq] at hk
    subst hk
    obtain ⟨n, rfl⟩ : ∃ n, fuel = n + 1 := ⟨fuel - 1, by omega⟩
    simp [pollLoop, hd]
  | k + 1, w, wk, wf, res, hk, hd, fuel, hfuel => by
    obtain ⟨n, rfl⟩ : ∃ n, fuel = n + 1 := ⟨fuel - 1, by omega⟩
    simp only [loopState] at hk
    cases hp : pollOnce env c location waitTime w with
    | done res1 w1 => simp [hp] at hk
    | next w1 =>
      simp only [hp] at hk
      simp only [pollLoop, hp]
      exact pollLoop_of_loopState env c location waitTime k w1 wk wf res hk hd n (by omega)

/-- While the passes continue, the loop with more fuel goes on from the state reached. -/
theorem pollLoop_loopState_add (env : Env) (c : Client) (location : URL) (waitTime : Duration) :
    ∀ (k : Nat) (w wk : World), loopState env c location waitTime k w = some wk →
      ∀ fuel, pollLoop env c location waitTime (k + fuel) w
        = pollLoop env c location waitTime fuel wk
  | 0, w, wk, hk, fuel => by
    simp only [loopState, Option.some.injEq] at hk
    subst hk
    simp
  | k + 1, w, wk, hk, fuel => by
    simp only [loopState] at hk
    cases hp : pollOnce env c location waitTime w with
    | done res1 w1 => simp [hp] at hk
    | next w1 =>
      simp only [hp] at hk
      have : k + 1 + fuel = (k + fuel) + 1 := by omega
      rw [this]
      simp only [pollLoop, hp]
      exact pollLoop_loopState_add env c location waitTime k w1 wk hk fuel

/-- The state after one more continuing pass. -/
theorem loopState_succ (env : Env) (c : Client) (location : URL) (waitTime : Duration) :
    ∀ (k : Nat) (w wk w3 : World), loopState env c location waitTime k w = some wk →
      pollOnce env c location waitTime wk = .next w3 →
      loopState env c location waitTime (k + 1) w = some w3
  | 0, w, wk, w3, hk, hn => by
    simp only [loopState, Option.some.injEq] at hk
    subst hk
    simp [loopState, hn]
  | k + 1, w, wk, w3, hk, hn => by
    simp only [loopState] at hk
    cases hp : pollOnce env c location waitTime w with
    | done res1 w1 => simp [hp] at hk
    | next w1 =>
      simp only [hp] at hk
      have ih := loopState_succ env c location waitTime k w1 wk w3 hk hn
      rw [loopState, hp]
      exact ih

/-! ## The token signer -/

/-- The SHA-256 and hexadecimal definitions reproduce the standard test vector for `abc`. -/
theorem sha256_abc :
    hexEncodeToString (sha256 (stringBytes "abc"))
      = "ba7816bf8f01cfea414140de5dae2223b00361a396177a9cb410ff61f20015ad" := by
  decide

/-- Claim C1. Whatever the surroundings (clock, signing primitive), the client identity and the
request, the token `setToken` builds has its `qsh` claim equal to the lowercase hexadecimal
SHA-256 digest of the bytes of `Method ++ "&" ++ URL.Path`, taken as they stand on the
request; and when `setToken` succeeds, the `Authorization` header holds the signature of
exactly that token. -/
theorem setToken_qsh (env : Env) (c : Client) (r : Request) (w : World) :
    (setTokenClaims env c r w).1.claim "qsh"
      = some (.str (hexEncodeToString (sha256 (stringBytes (r.Method ++ "&" ++ r.URL.Path))))) ∧
    ((setToken env c r w).1 = none →
      ∃ signed, env.signedString (setTokenClaims env c r w).1 (stringBytes c.key) = .ok signed ∧
        (setToken env c r w).2.1.Header.Get "Authorization" = "bearer " ++ signed) := by
  refine ⟨setTokenClaims_qsh env c r w, fun hnone => ?_⟩
  rcases setToken_cases env c r w with ⟨signed, hs, ht⟩ | ⟨err, _, ht⟩
  · refine ⟨signed, hs, ?_⟩
    rw [ht]
    exact Header.Get_Set_same _ _ _
  · rw [ht] at hnone
    simp at hnone

/-- Instance of the preceding theorem at the request `GET /jobs/42` of user `u`: the call succeeds,
the header carries the signed token and the `qsh` claim is the digest of `GET&/jobs/42`. -/
theorem setToken_qsh_witness :
    (setTokenClaims (demoEnv steadyClock (.ok "h.c.s") []) demoClient (mkRequest "GET" "/jobs/42")
        world0).1.claim "qsh"
      = some (.str (hexEncodeToString (sha256 (stringBytes ("GET" ++ "&" ++ "/jobs/42"))))) ∧
    ∃ signed, (demoEnv steadyClock (.ok "h.c.s") []).signedString
        (setTokenClaims (demoEnv steadyClock (.ok "h.c.s") []) demoClient
          (mkRequest "GET" "/jobs/42") world0).1 (stringBytes demoClient.key) = .ok signed ∧
      (setToken (demoEnv steadyClock (.ok "h.c.s") []) demoClient (mkRequest "GET" "/jobs/42")
        world0).2.1.Header.Get "Authorization" = "bearer " ++ signed :=
  ⟨(setToken_qsh (demoEnv steadyClock (.ok "h.c.s") []) demoClient (mkRequest "GET" "/jobs/42")
      world0).1,
   (setToken_qsh (demoEnv steadyClock (.ok "h.c.s") []) demoClient (mkRequest "GET" "/jobs/42")
      world0).2 (by decide)⟩

/-- The digest of `GET&/jobs/42`, the `qsh` of the polling request of the scenario. -/
theorem qsh_get_jobs_42 :
    hexEncodeToString (sha256 (stringBytes (qshstring (mkRequest "GET" "/jobs/42"))))
      = "b9611cee7945e86753dd5636f73d0f9dac7d17df169c40a877f7132be065cbfc" := by
  decide

/-- Claim C2, refuted as stated. With the first clock read 100 ns before a second boundary and
the second read 100 ns after it, `setToken` succeeds with `iat = 1445999999` and
`exp = 1446000300`, which is `iat + 301`. -/
theorem setToken_exp_counterexample :
    (setToken (demoEnv boundaryClock (.ok "h.c.s") []) demoClient (mkRequest "GET" "/jobs/42")
      world0).1 = none ∧
    (setTokenClaims (demoEnv boundaryClock (.ok "h.c.s") []) demoClient (mkRequest "GET" "/jobs/42")
      world0).1.claim "iat" = some (.int 1445999999) ∧
    (setTokenClaims (demoEnv boundaryClock (.ok "h.c.s") []) demoClient (mkRequest "GET" "/jobs/42")
      world0).1.claim "exp" = some (.int 1446000300) ∧
    (1446000300 : Int) ≠ 1445999999 + 300 := by
  decide

/-- Claim C2, amended. In every token `setToken` builds, `iat` is the Unix second of the first
clock read and `exp` is the Unix second of the second clock read plus 300; hence `exp` is
`iat + 300` whenever both reads fall in the same second. -/
theorem setToken_exp_iat (env : Env) (c : Client) (r : Request) (w : World) :
    (setTokenClaims env c r w).1.claim "iat" = some (.int (env.now w.clockReads).Unix) ∧
    (setTokenClaims env c r w).1.claim "exp"
      = some (.int ((env.now (w.clockReads + 1)).Unix + 300)) ∧
    ((env.now (w.clockReads + 1)).Unix = (env.now w.clockReads).Unix →
      (setTokenClaims env c r w).1.claim "exp"
        = some (.int ((env.now w.clockReads).Unix + 300))) := by
  refine ⟨setTokenClaims_iat env c r w, setTokenClaims_exp env c r w, fun hsame => ?_⟩
  rw [← hsame]
  exact setTokenClaims_exp env c r w

/-- Instance of the preceding theorem with a clock that advances one millisecond per read: both
reads fall in second 1446000000 and `exp` is `iat + 300`. -/
theorem setToken_exp_iat_witness :
    (steadyClock (world0.clockReads + 1)).Unix = (steadyClock world0.clockReads).Unix ∧
    (setTokenClaims (demoEnv steadyClock (.ok "h.c.s") []) demoClient (mkRequest "GET" "/jobs/42")
      world0).1.claim "exp" = some (.int ((steadyClock world0.clockReads).Unix + 300)) :=
  ⟨by decide,
   (setToken_exp_iat (demoEnv steadyClock (.ok "h.c.s") []) demoClient
      (mkRequest "GET" "/jobs/42") world0).2.2 (by decide)⟩

/-- Claim C8. For every redirected request and every history of earlier requests,
`checkRedirect` returns what `setToken` returns on that request (error, request and world
alike), so nothing depends on the history; and when it succeeds, the header carries the
signature of a token whose `qsh` is the digest of the redirected request's own method and
path. -/
theorem checkRedirect_eq_setToken (env : Env) (c : Client) (req : Request) (via : List Request)
    (w : World) :
    checkRedirect env c req via w = setToken env c req w ∧
    (∀ via2, checkRedirect env c req via2 w = checkRedirect env c req via w) ∧
    ((checkRedirect env c req via w).1 = none →
      ∃ signed, env.signedString (setTokenClaims env c req w).1 (stringBytes c.key) = .ok signed ∧
        (checkRedirect env c req via w).2.1.Header.Get "Authorization" = "bearer " ++ signed ∧
        (setTokenClaims env c req w).1.claim "qsh"
          = some (.str (hexEncodeToString
              (sha256 (stringBytes (req.Method ++ "&" ++ req.URL.Path)))))) := by
  refine ⟨rfl, fun _ => rfl, fun hnone => ?_⟩
  simp only [checkRedirect] at hnone ⊢
  rcases setToken_cases env c req w with ⟨signed, hs, ht⟩ | ⟨err, _, ht⟩
  · refine ⟨signed, hs, ?_, setTokenClaims_qsh env c req w⟩
    rw [ht]
    exact Header.Get_Set_same _ _ _
  · rw [ht] at hnone
    simp at hnone

/-- Instance of the preceding theorem at a redirect to `GET /jobs/43` reached from a
`POST /volumes`: the token is bound to `GET&/jobs/43`. -/
theorem checkRedirect_eq_setToken_witness :
    ∃ signed, (demoEnv steadyClock (.ok "h.c.s") []).signedString
        (setTokenClaims (demoEnv steadyClock (.ok "h.c.s") []) demoClient
          (mkRequest "GET" "/jobs/43") world0).1 (stringBytes demoClient.key) = .ok signed ∧
      (checkRedirect (demoEnv steadyClock (.ok "h.c.s") []) demoClient (mkRequest "GET" "/jobs/43")
        [mkRequest "POST" "/volumes"] world0).2.1.Header.Get "Authorization"
          = "bearer " ++ signed ∧
      (setTokenClaims (demoEnv steadyClock (.ok "h.c.s") []) demoClient
          (mkRequest "GET" "/jobs/43") world0).1.claim "qsh"
        = some (.str (hexEncodeToString
            (sha256 (stringBytes ((mkRequest "GET" "/jobs/43").Method ++ "&"
              ++ (mkRequest "GET" "/jobs/43").URL.Path))))) :=
  (checkRedirect_eq_setToken (demoEnv steadyClock (.ok "h.c.s") []) demoClient
    (mkRequest "GET" "/jobs/43") [mkRequest "POST" "/volumes"] world0).2.2 (by decide)

/-- Claim C9. When the signing primitive returns a signed token, `setToken` returns no error,
binds `Authorization` to exactly the one value `bearer ` followed by that token, and leaves
the method, URL, body, host and the binding of every other header key as they were; when the
primitive returns an error, `setToken` returns that error and the request is unchanged. -/
theorem setToken_frame (env : Env) (c : Client) (r : Request) (w : World) :
    (∀ signed, env.signedString (setTokenClaims env c r w).1 (stringBytes c.key) = .ok signed →
      (setToken env c r w).1 = none ∧
      (setToken env c r w).2.1.Header.lookup "Authorization" = some ["bearer " ++ signed] ∧
      (setToken env c r w).2.1.Method = r.Method ∧
      (setToken env c r w).2.1.URL = r.URL ∧
      (setToken env c r w).2.1.Body = r.Body ∧
      (setToken env c r w).2.1.Host = r.Host ∧
      ∀ k, k ≠ "Authorization" →
        (setToken env c r w).2.1.Header.lookup k = r.Header.lookup k) ∧
    (∀ err, env.signedString (setTokenClaims env c r w).1 (stringBytes c.key) = .error err →
      (setToken env c r w).1 = some err ∧ (setToken env c r w).2.1 = r) := by
  constructor
  · intro signed hs
    rcases setToken_cases env c r w with ⟨s2, hs2, ht⟩ | ⟨err, hs2, _⟩
    · rw [hs] at hs2
      cases hs2
      rw [ht]
      refine ⟨rfl, ?_, rfl, rfl, rfl, rfl, fun k hk => ?_⟩
      · have h := Header.lookup_Set_same r.Header "Authorization" ("bearer " ++ signed)
        rw [canonical_Authorization] at h
        exact h
      · exact Header.lookup_Set_other _ _ _ _ (by rw [canonical_Authorization]; exact hk)
    · rw [hs] at hs2
      cases hs2
  · intro err hs
    rcases setToken_cases env c r w with ⟨s2, hs2, _⟩ | ⟨e2, hs2, ht⟩
    · rw [hs] at hs2
      cases hs2
    · rw [hs] at hs2
      cases hs2
      rw [ht]
      exact ⟨rfl, rfl⟩

/-- Instance of the preceding theorem on a request that already carries `Authorization: bearer old`
and an `Accept` header: once with a signing primitive that returns `h.c.s`, once with one
that rejects the key. -/
theorem setToken_frame_witness :
    ((setToken (demoEnv steadyClock (.ok "h.c.s") []) demoClient (mkRequest "PUT" "/volumes/7")
        world0).1 = none ∧
      (setToken (demoEnv steadyClock (.ok "h.c.s") []) demoClient (mkRequest "PUT" "/volumes/7")
        world0).2.1.Header.lookup "Authorization" = some ["bearer " ++ "h.c.s"] ∧
      (setToken (demoEnv steadyClock (.ok "h.c.s") []) demoClient (mkRequest "PUT" "/volumes/7")
        world0).2.1.Header.lookup "Accept" = (mkRequest "PUT" "/volumes/7").Header.lookup "Accept") ∧
    ((setToken (demoEnv steadyClock (.error "key is invalid") []) demoClient
        (mkRequest "PUT" "/volumes/7") world0).1 = some "key is invalid" ∧
      (setToken (demoEnv steadyClock (.error "key is invalid") []) demoClient
        (mkRequest "PUT" "/volumes/7") world0).2.1 = mkRequest "PUT" "/volumes/7") :=
  ⟨⟨((setToken_frame (demoEnv steadyClock (.ok "h.c.s") []) demoClient
        (mkRequest "PUT" "/volumes/7") world0).1 "h.c.s" rfl).1,
    ((setToken_frame (demoEnv steadyClock (.ok "h.c.s") []) demoClient
        (mkRequest "PUT" "/volumes/7") world0).1 "h.c.s" rfl).2.1,
    ((setToken_frame (demoEnv steadyClock (.ok "h.c.s") []) demoClient
        (mkRequest "PUT" "/volumes/7") world0).1 "h.c.s" rfl).2.2.2.2.2.2 "Accept" (by decide)⟩,
   (setToken_frame (demoEnv steadyClock (.error "key is invalid") []) demoClient
      (mkRequest "PUT" "/volumes/7") world0).2 "key is invalid" rfl⟩

/-- Claim C10, refuted as stated. The pairs (`GET&`, `/x`) and (`GET`, `&/x`) differ, yet
`setToken` hashes the same string `GET&&/x` for both, so both tokens carry the same `qsh`. -/
theorem qshstring_collision :
    ((mkRequest "GET&" "/x").Method, (mkRequest "GET&" "/x").URL.Path)
      ≠ ((mkRequest "GET" "&/x").Method, (mkRequest "GET" "&/x").URL.Path) ∧
    qshstring (mkRequest "GET&" "/x") = qshstring (mkRequest "GET" "&/x") ∧
    (setTokenClaims (demoEnv steadyClock (.ok "h.c.s") []) demoClient (mkRequest "GET&" "/x")
        world0).1.claim "qsh"
      = (setTokenClaims (demoEnv steadyClock (.ok "h.c.s") []) demoClient (mkRequest "GET" "&/x")
        world0).1.claim "qsh" := by
  have h : qshstring (mkRequest "GET&" "/x") = qshstring (mkRequest "GET" "&/x") := by decide
  refine ⟨by decide, h, ?_⟩
  rw [setTokenClaims_qsh, setTokenClaims_qsh]
  exact congrArg (fun s => some (ClaimValue.str (hexEncodeToString (sha256 (stringBytes s))))) h

/-- Claim C10, amended. For requests whose methods contain no `&` (as every standard HTTP
method), different (method, path) pairs make `setToken` hash different strings. -/
theorem qshstring_injective (r1 r2 : Request)
    (h1 : '&' ∉ r1.Method.toList) (h2 : '&' ∉ r2.Method.toList)
    (hne : (r1.Method, r1.URL.Path) ≠ (r2.Method, r2.URL.Path)) :
    qshstring r1 ≠ qshstring r2 := by
  intro heq
  apply hne
  have hd : r1.Method.data ++ '&' :: r1.URL.Path.data
      = r2.Method.data ++ '&' :: r2.URL.Path.data := by
    have := congrArg String.data heq
    simpa [qshstring, String.data_append] using this
  obtain ⟨hm, hp⟩ := append_sep_inj '&' _ _ _ _ h1 h2 hd
  rw [Prod.mk.injEq]
  exact ⟨String.ext hm, String.ext hp⟩

/-- Instance of the preceding theorem at `GET /jobs/42` against `DELETE /jobs/42`. -/
theorem qshstring_injective_witness :
    qshstring (mkRequest "GET" "/jobs/42") ≠ qshstring (mkRequest "DELETE" "/jobs/42") :=
  qshstring_injective (mkRequest "GET" "/jobs/42") (mkRequest "DELETE" "/jobs/42")
    (by decide) (by decide) (by decide)

/-! ## Where the requests of the loop go -/

theorem requestsGoTo_nil (env : Env) (location : URL) : requestsGoTo env location [] := by
  intro req outcome hmem
  simp at hmem

theorem requestsGoTo_append (env : Env) (location : URL) (a b : List Event)
    (ha : requestsGoTo env location a) (hb : requestsGoTo env location b) :
    requestsGoTo env location (a ++ b) := by
  intro req outcome hmem
  rcases List.mem_append.mp hmem with h | h
  · exact ha req outcome h
  · exact hb req outcome h

theorem requestsGoTo_sleep (env : Env) (location : URL) (d : Duration) :
    requestsGoTo env location [Event.sleep d] := by
  intro req outcome hmem
  simp at hmem

/-- The first half of a pass adds at most one entry to the log, a `GET` to the location. -/
theorem pollFetch_trace (env : Env) (c : Client) (location : URL) (w : World) :
    ∃ evs, (pollFetch env c location w).2.trace = w.trace ++ evs ∧
      requestsGoTo env location evs := by
  rcases pollFetch_cases env c location w with
    ⟨err, _, hf⟩ | ⟨req, hN, ⟨err, _, hf⟩ | ⟨req1, _, hm, hu, hf⟩⟩
  · exact ⟨[], by simp [hf], requestsGoTo_nil env location⟩
  · exact ⟨[], by simp [hf], requestsGoTo_nil env location⟩
  · have hreq := NewRequest_ok env "GET" _ req hN
    refine ⟨[Event.roundTrip req1 (env.roundTrip w.doCalls req1)], by simp [hf, clientDo], ?_⟩
    intro r2 outcome hmem
    simp only [List.mem_singleton, Event.roundTrip.injEq] at hmem
    obtain ⟨h1, _⟩ := hmem
    subst h1
    exact ⟨hm.trans hreq.1, hu ▸ hreq.2.1⟩

/-- A pass that ends the loop leaves the world as its first half left it. -/
theorem pollOnce_done_world (env : Env) (c : Client) (location : URL) (waitTime : Duration)
    (w wf : World) (res : Option Response × Option Error)
    (h : pollOnce env c location waitTime w = .done res wf) :
    wf = (pollFetch env c location w).2 := by
  unfold pollOnce at h
  rcases hf : pollFetch env c location w with ⟨res0, w2⟩
  rw [hf] at h
  cases res0 with
  | error err =>
    simp only [Step.done.injEq] at h
    exact h.2.symm
  | ok r =>
    simp only at h
    by_cases hp : r.Header.Get "X-Pending" = "true"
    · by_cases hs : r.StatusCode = StatusOK
      · simp [hp, hs] at h
      · simp only [hp, if_true, ne_eq, hs, not_false_eq_true, Step.done.injEq] at h
        exact h.2.symm
    · simp only [hp, if_false, Step.done.injEq] at h
      exact h.2.symm

/-- A pass that ends the loop adds at most one entry to the log, a `GET` to the location. -/
theorem pollOnce_done_trace (env : Env) (c : Client) (location : URL) (waitTime : Duration)
    (w wf : World) (res : Option Response × Option Error)
    (h : pollOnce env c location waitTime w = .done res wf) :
    ∃ evs, wf.trace = w.trace ++ evs ∧ requestsGoTo env location evs := by
  rw [pollOnce_done_world env c location waitTime w wf res h]
  exact pollFetch_trace env c location w

/-- A pass that continues the loop adds a `GET` to the location and a sleep to the log. -/
theorem pollOnce_next_trace (env : Env) (c : Client) (location : URL) (waitTime : Duration)
    (w w3 : World) (h : pollOnce env c location waitTime w = .next w3) :
    ∃ evs, w3.trace = w.trace ++ evs ∧ requestsGoTo env location evs := by
  obtain ⟨r, w2, hf, _, _, hw3⟩ := pollOnce_next env c location waitTime w w3 h
  obtain ⟨evs, he, hg⟩ := pollFetch_trace env c location w
  rw [hf] at he
  refine ⟨evs ++ [Event.sleep waitTime], ?_,
    requestsGoTo_append env location _ _ hg (requestsGoTo_sleep env location waitTime)⟩
  subst hw3
  simp only [timeSleep]
  simp only at he
  rw [he, List.append_assoc]

/-- All requests logged by the passes that continue the loop go to the location. -/
theorem loopState_trace (env : Env) (c : Client) (location : URL) (waitTime : Duration) :
    ∀ (k : Nat) (w wk : World), loopState env c location waitTime k w = some wk →
      ∃ evs, wk.trace = w.trace ++ evs ∧ requestsGoTo env location evs
  | 0, w, wk, h => by
    simp only [loopState, Option.some.injEq] at h
    subst h
    exact ⟨[], by simp, requestsGoTo_nil env location⟩
  | k + 1, w, wk, h => by
    simp only [loopState] at h
    cases hp : pollOnce env c location waitTime w with
    | done res w1 => simp [hp] at h
    | next w1 =>
      simp only [hp] at h
      obtain ⟨e1, h1, g1⟩ := pollOnce_next_trace env c location waitTime w w1 hp
      obtain ⟨e2, h2, g2⟩ := loopState_trace env c location waitTime k w1 wk h
      exact ⟨e1 ++ e2, by rw [h2, h1, List.append_assoc],
        requestsGoTo_append env location _ _ g1 g2⟩

/-- All requests logged by a loop that returns go to the location. -/
theorem pollLoop_trace (env : Env) (c : Client) (location : URL) (waitTime : Duration) :
    ∀ (fuel : Nat) (w wf : World) (res : Option Response × Option Error),
      pollLoop env c location waitTime fuel w = some (res, wf) →
      ∃ evs, wf.trace = w.trace ++ evs ∧ requestsGoTo env location evs
  | 0, w, wf, res, h => by simp [pollLoop] at h
  | fuel + 1, w, wf, res, h => by
    simp only [pollLoop] at h
    cases hp : pollOnce env c location waitTime w with
    | done res1 w1 =>
      simp only [hp, Option.some.injEq, Prod.mk.injEq] at h
      obtain ⟨_, hw⟩ := h
      subst hw
      exact pollOnce_done_trace env c location waitTime w w1 res1 hp
    | next w1 =>
      simp only [hp] at h
      obtain ⟨e1, h1, g1⟩ := pollOnce_next_trace env c location waitTime w w1 hp
      obtain ⟨e2, h2, g2⟩ := pollLoop_trace env c location waitTime fuel w1 wf res h
      exact ⟨e1 ++ e2, by rw [h2, h1, List.append_assoc],
        requestsGoTo_append env location _ _ g1 g2⟩

/-! ## The polling client -/

/-- When pass `k + 1` ends the loop, the whole operation returns what that pass returns. -/
theorem waitForResponse_of_done (env : Env) (c : Client) (r0 : Response) (waitTime : Duration)
    (location : URL) (k : Nat) (w wk wf : World) (res : Option Response × Option Error)
    (hloc : r0.Location env = .ok location)
    (hk : loopState env c location waitTime k w = some wk)
    (hd : pollOnce env c location waitTime wk = .done res wf) :
    ∀ fuel, k < fuel → waitForResponseWithTimer env c r0 waitTime fuel w = some (res, wf) := by
  intro fuel hfuel
  simp only [waitForResponseWithTimer, hloc]
  exact pollLoop_of_loopState env c location waitTime k w wk wf res hk hd fuel hfuel

/-- Log counts at the receipt of the response of pass `k + 1`. -/
theorem receipt_counts (env : Env) (c : Client) (location : URL) (waitTime : Duration)
    (k : Nat) (w wk w2 : World) (r : Response)
    (hk : loopState env c location waitTime k w = some wk)
    (hfetch : pollFetch env c location wk = (.ok r, w2)) :
    (∃ req, w2.trace = wk.trace ++ [Event.roundTrip req (.ok r)]) ∧
    sentRequests w2.trace = sentRequests w.trace + (k + 1) ∧
    sleeps w2.trace = sleeps w.trace + k := by
  obtain ⟨req, _, _, _, hw2⟩ := pollFetch_ok env c location wk w2 r hfetch
  have hc := loopState_counts env c location waitTime k w wk hk
  subst hw2
  refine ⟨⟨req, rfl⟩, ?_, ?_⟩
  · simp only [sentRequests_append, hc.1]
    simp [sentRequests]
    omega
  · simp only [sleeps_append, hc.2.2.1]
    simp [sleeps]

/-- Claim C3. Whatever the transport answers, if the response received in some pass of the loop
carries `X-Pending: true` with a status outside the 2xx class, the operation ends there:
it returns no response and the error extracted from that response, the receipt of that
response is the last entry of the log, and the log holds one request per pass and one
sleep per earlier pass, so neither a request nor a sleep follows. -/
theorem waitForResponse_pending_failure (env : Env) (c : Client) (r0 : Response)
    (waitTime : Duration) (location : URL) (k : Nat) (w wk w2 : World) (r : Response)
    (hloc : r0.Location env = .ok location)
    (hk : loopState env c location waitTime k w = some wk)
    (hfetch : pollFetch env c location wk = (.ok r, w2))
    (hpend : r.Header.Get "X-Pending" = "true")
    (hstatus : ¬ isSuccessStatus r.StatusCode) :
    (∀ fuel, k < fuel → waitForResponseWithTimer env c r0 waitTime fuel w
        = some ((none, some (env.getErrorFromResponse r)), w2)) ∧
    (∃ req, w2.trace = wk.trace ++ [Event.roundTrip req (.ok r)]) ∧
    sentRequests w2.trace = sentRequests w.trace + (k + 1) ∧
    sleeps w2.trace = sleeps w.trace + k := by
  have hne : r.StatusCode ≠ StatusOK := by
    intro h
    apply hstatus
    rw [h]
    decide
  have hd : pollOnce env c location waitTime wk
      = .done (none, some (env.getErrorFromResponse r)) w2 := by
    simp [pollOnce, hfetch, hpend, hne]
  exact ⟨waitForResponse_of_done env c r0 waitTime location k w wk w2 _ hloc hk hd,
    receipt_counts env c location waitTime k w wk w2 r hk hfetch⟩

/-- Instance of the preceding theorem on the script: pending with 200, then pending
with 500 and body `boom`: the second pass ends the operation with the error `boom`. -/
theorem waitForResponse_pending_failure_witness :
    (∀ fuel, 1 < fuel →
      waitForResponseWithTimer (pollEnv [.ok pendingResponse, .ok pendingFailed]) demoClient
        acceptedResponse 1000 fuel world0
        = some ((none, some ((pollEnv [.ok pendingResponse, .ok pendingFailed]).getErrorFromResponse
            pendingFailed)),
          afterPoll (timeSleep 1000 (afterPoll world0 (.ok pendingResponse)))
            (.ok pendingFailed))) ∧
    (∃ req, (afterPoll (timeSleep 1000 (afterPoll world0 (.ok pendingResponse)))
          (.ok pendingFailed)).trace
        = (timeSleep 1000 (afterPoll world0 (.ok pendingResponse))).trace
          ++ [Event.roundTrip req (.ok pendingFailed)]) ∧
    sentRequests (afterPoll (timeSleep 1000 (afterPoll world0 (.ok pendingResponse)))
        (.ok pendingFailed)).trace = sentRequests world0.trace + (1 + 1) ∧
    sleeps (afterPoll (timeSleep 1000 (afterPoll world0 (.ok pendingResponse)))
        (.ok pendingFailed)).trace = sleeps world0.trace + 1 :=
  waitForResponse_pending_failure (pollEnv [.ok pendingResponse, .ok pendingFailed]) demoClient
    acceptedResponse 1000 (jobURL "42") 1 world0
    (timeSleep 1000 (afterPoll world0 (.ok pendingResponse)))
    (afterPoll (timeSleep 1000 (afterPoll world0 (.ok pendingResponse))) (.ok pendingFailed))
    pendingFailed (by decide) (by decide) (by decide) (by decide) (by decide)

/-- Claim C4, refuted as stated. A poll response with `X-Pending: true` and the success status
202 ends the loop: the operation returns the extracted error `boom`, with one request in
the log and no sleep. -/
theorem pending_accepted_terminates :
    isSuccessStatus pendingAccepted.StatusCode ∧
    pendingAccepted.Header.Get "X-Pending" = "true" ∧
    pollFetch (pollEnv [.ok pendingAccepted, .ok finishedResponse]) demoClient (jobURL "42") world0
      = (.ok pendingAccepted, afterPoll world0 (.ok pendingAccepted)) ∧
    waitForResponseWithTimer (pollEnv [.ok pendingAccepted, .ok finishedResponse]) demoClient
        acceptedResponse 1000 5 world0
      = some ((none, some "boom"), afterPoll world0 (.ok pendingAccepted)) ∧
    sleeps (afterPoll world0 (.ok pendingAccepted)).trace = 0 ∧
    sentRequests (afterPoll world0 (.ok pendingAccepted)).trace = 1 := by
  decide

/-- Claim C4, amended. If the response received in some pass of the loop carries
`X-Pending: true` with status exactly 200, that pass returns nothing: it sleeps for the wait
time exactly once, right after the receipt, and the operation goes on with the next pass,
which builds the same `GET` request for the same location and, once its token is signed,
sends it as the next entry of the log. -/
theorem waitForResponse_pending_ok (env : Env) (c : Client) (r0 : Response)
    (waitTime : Duration) (location : URL) (k : Nat) (w wk w2 : World) (r : Response)
    (hloc : r0.Location env = .ok location)
    (hk : loopState env c location waitTime k w = some wk)
    (hfetch : pollFetch env c location wk = (.ok r, w2))
    (hpend : r.Header.Get "X-Pending" = "true")
    (hstatus : r.StatusCode = 200) :
    pollOnce env c location waitTime wk = .next (timeSleep waitTime w2) ∧
    (∃ req, (timeSleep waitTime w2).trace
        = wk.trace ++ [Event.roundTrip req (.ok r), Event.sleep waitTime]) ∧
    (∀ fuel, waitForResponseWithTimer env c r0 waitTime (k + 1 + fuel) w
        = pollLoop env c location waitTime fuel (timeSleep waitTime w2)) ∧
    (∃ req2, NewRequest env "GET" (env.urlString location) = .ok req2 ∧
      ∀ signed, env.signedString (setTokenClaims env c req2 (timeSleep waitTime w2)).1
          (stringBytes c.key) = .ok signed →
        ∃ req3, req3.Method = "GET" ∧ env.urlParse (env.urlString location) = .ok req3.URL ∧
          (pollFetch env c location (timeSleep waitTime w2)).2.trace
            = (timeSleep waitTime w2).trace
              ++ [Event.roundTrip req3 (env.roundTrip (timeSleep waitTime w2).doCalls req3)]) := by
  have hnext : pollOnce env c location waitTime wk = .next (timeSleep waitTime w2) := by
    have hs : r.StatusCode = StatusOK := hstatus
    simp [pollOnce, hfetch, hpend, hs]
  refine ⟨hnext, ?_, ?_, ?_⟩
  · obtain ⟨req, _, _, _, hw2⟩ := pollFetch_ok env c location wk w2 r hfetch
    subst hw2
    exact ⟨req, by simp [timeSleep]⟩
  · intro fuel
    have hk1 := loopState_succ env c location waitTime k w wk _ hk hnext
    simp only [waitForResponseWithTimer, hloc]
    exact pollLoop_loopState_add env c location waitTime (k + 1) w _ hk1 fuel
  · rcases pollFetch_cases env c location wk with
      ⟨err, _, hf⟩ | ⟨req, hN, ⟨err, _, hf⟩ | ⟨req1, _, _, _, _⟩⟩
    · rw [hf] at hfetch; simp at hfetch
    · rw [hf] at hfetch; simp at hfetch
    · refine ⟨req, hN, fun signed hs => ?_⟩
      have hreq := NewRequest_ok env "GET" _ req hN
      rcases setToken_cases env c req (timeSleep waitTime w2) with ⟨s2, _, ht⟩ | ⟨e2, hs2, _⟩
      · refine ⟨{ req with Header := req.Header.Set "Authorization" ("bearer " ++ s2) },
          hreq.1, hreq.2.1, ?_⟩
        simp [pollFetch, hN, ht, clientDo]
      · rw [hs] at hs2
        cases hs2

/-- Instance of the preceding theorem on the script: pending with 200, then finished: the
first pass sleeps once and the second pass sends the signed poll again. -/
theorem waitForResponse_pending_ok_witness :
    pollOnce (pollEnv [.ok pendingResponse, .ok finishedResponse]) demoClient (jobURL "42") 1000
        world0 = .next (timeSleep 1000 (afterPoll world0 (.ok pendingResponse))) ∧
    (∃ req, (timeSleep 1000 (afterPoll world0 (.ok pendingResponse))).trace
        = world0.trace ++ [Event.roundTrip req (.ok pendingResponse), Event.sleep 1000]) ∧
    (∀ fuel, waitForResponseWithTimer (pollEnv [.ok pendingResponse, .ok finishedResponse])
          demoClient acceptedResponse 1000 (0 + 1 + fuel) world0
        = pollLoop (pollEnv [.ok pendingResponse, .ok finishedResponse]) demoClient (jobURL "42")
            1000 fuel (timeSleep 1000 (afterPoll world0 (.ok pendingResponse)))) ∧
    (∃ req2, NewRequest (pollEnv [.ok pendingResponse, .ok finishedResponse]) "GET"
          ((pollEnv [.ok pendingResponse, .ok finishedResponse]).urlString (jobURL "42"))
          = .ok req2 ∧
      ∀ signed, (pollEnv [.ok pendingResponse, .ok finishedResponse]).signedString
          (setTokenClaims (pollEnv [.ok pendingResponse, .ok finishedResponse]) demoClient req2
            (timeSleep 1000 (afterPoll world0 (.ok pendingResponse)))).1
          (stringBytes demoClient.key) = .ok signed →
        ∃ req3, req3.Method = "GET" ∧
          (pollEnv [.ok pendingResponse, .ok finishedResponse]).urlParse
            ((pollEnv [.ok pendingResponse, .ok finishedResponse]).urlString (jobURL "42"))
            = .ok req3.URL ∧
          (pollFetch (pollEnv [.ok pendingResponse, .ok finishedResponse]) demoClient (jobURL "42")
              (timeSleep 1000 (afterPoll world0 (.ok pendingResponse)))).2.trace
            = (timeSleep 1000 (afterPoll world0 (.ok pendingResponse))).trace
              ++ [Event.roundTrip req3
                ((pollEnv [.ok pendingResponse, .ok finishedResponse]).roundTrip
                  (timeSleep 1000 (afterPoll world0 (.ok pendingResponse))).doCalls req3)]) :=
  waitForResponse_pending_ok (pollEnv [.ok pendingResponse, .ok finishedResponse]) demoClient
    acceptedResponse 1000 (jobURL "42") 0 world0 world0
    (afterPoll world0 (.ok pendingResponse)) pendingResponse
    (by decide) (by decide) (by decide) (by decide) (by decide)

/-- Claim C5, refuted as stated. The response passed in by the caller carries no pending
indicator, yet the operation sends one request to its location and returns the response to
that request, not the caller's. -/
theorem initial_response_is_polled :
    acceptedResponse.Header.Get "X-Pending" ≠ "true" ∧
    waitForResponseWithTimer (pollEnv [.ok finishedResponse]) demoClient acceptedResponse 1000 5
        world0
      = some ((some finishedResponse, none), afterPoll world0 (.ok finishedResponse)) ∧
    finishedResponse ≠ acceptedResponse ∧
    sentRequests (afterPoll world0 (.ok finishedResponse)).trace = 1 := by
  decide

/-- Claim C5, amended. If the response received in some pass of the loop does not carry the
pending indicator, the operation ends there and returns that response unchanged with no
error; its receipt is the last entry of the log, so no request and no sleep follows.  The
response passed in by the caller is used for its location only. -/
theorem waitForResponse_completed (env : Env) (c : Client) (r0 : Response)
    (waitTime : Duration) (location : URL) (k : Nat) (w wk w2 : World) (r : Response)
    (hloc : r0.Location env = .ok location)
    (hk : loopState env c location waitTime k w = some wk)
    (hfetch : pollFetch env c location wk = (.ok r, w2))
    (hdone : r.Header.Get "X-Pending" ≠ "true") :
    (∀ fuel, k < fuel → waitForResponseWithTimer env c r0 waitTime fuel w
        = some ((some r, none), w2)) ∧
    (∃ req, w2.trace = wk.trace ++ [Event.roundTrip req (.ok r)]) ∧
    sentRequests w2.trace = sentRequests w.trace + (k + 1) ∧
    sleeps w2.trace = sleeps w.trace + k ∧
    (∀ r0b, r0b.Location env = .ok location →
      ∀ fuel, waitForResponseWithTimer env c r0b waitTime fuel w
        = waitForResponseWithTimer env c r0 waitTime fuel w) := by
  have hd : pollOnce env c location waitTime wk = .done (some r, none) w2 := by
    simp [pollOnce, hfetch, hdone]
  obtain ⟨h1, h2, h3⟩ := receipt_counts env c location waitTime k w wk w2 r hk hfetch
  refine ⟨waitForResponse_of_done env c r0 waitTime location k w wk w2 _ hloc hk hd,
    h1, h2, h3, fun r0b hb fuel => ?_⟩
  simp only [waitForResponseWithTimer, hloc, hb]

/-- Instance of the preceding theorem on the scenario of the specification: the poll of
`http://x/jobs/42` answers 200 with `X-Pending: false`, and that response is returned. -/
theorem waitForResponse_completed_witness :
    (∀ fuel, 0 < fuel → waitForResponseWithTimer (pollEnv [.ok finishedResponse]) demoClient
        acceptedResponse 1000 fuel world0
        = some ((some finishedResponse, none), afterPoll world0 (.ok finishedResponse))) ∧
    (∃ req, (afterPoll world0 (.ok finishedResponse)).trace
        = world0.trace ++ [Event.roundTrip req (.ok finishedResponse)]) ∧
    sentRequests (afterPoll world0 (.ok finishedResponse)).trace
      = sentRequests world0.trace + (0 + 1) ∧
    sleeps (afterPoll world0 (.ok finishedResponse)).trace = sleeps world0.trace + 0 ∧
    (∀ r0b, r0b.Location (pollEnv [.ok finishedResponse]) = .ok (jobURL "42") →
      ∀ fuel, waitForResponseWithTimer (pollEnv [.ok finishedResponse]) demoClient r0b 1000 fuel
          world0
        = waitForResponseWithTimer (pollEnv [.ok finishedResponse]) demoClient acceptedResponse
            1000 fuel world0) :=
  waitForResponse_completed (pollEnv [.ok finishedResponse]) demoClient acceptedResponse 1000
    (jobURL "42") 0 world0 world0 (afterPoll world0 (.ok finishedResponse)) finishedResponse
    (by decide) (by decide) (by decide) (by decide)

/-- Claim C6, refuted as stated. First script: the response of the first pass is pending and
names `http://x/jobs/43`, yet the request of the second pass goes to `http://x/jobs/42`, the
location of the caller's response.  Second script: the response of the first pass has no
`Location` at all, yet the operation polls again and returns the final response without
error. -/
theorem later_locations_are_ignored :
    (pendingElsewhere.Location (pollEnv [.ok pendingElsewhere, .ok finishedResponse])
        = .ok (jobURL "43") ∧
      waitForResponseWithTimer (pollEnv [.ok pendingElsewhere, .ok finishedResponse]) demoClient
          acceptedResponse 1000 5 world0
        = some ((some finishedResponse, none),
            { clockReads := 4, doCalls := 2,
              trace := [Event.roundTrip signedPoll (.ok pendingElsewhere), Event.sleep 1000,
                        Event.roundTrip signedPoll (.ok finishedResponse)] }) ∧
      signedPoll.URL = jobURL "42" ∧ jobURL "42" ≠ jobURL "43") ∧
    (pendingResponse.Location (pollEnv [.ok pendingResponse, .ok finishedResponse])
        = .error ErrNoLocation ∧
      waitForResponseWithTimer (pollEnv [.ok pendingResponse, .ok finishedResponse]) demoClient
          acceptedResponse 1000 5 world0
        = some ((some finishedResponse, none),
            { clockReads := 4, doCalls := 2,
              trace := [Event.roundTrip signedPoll (.ok pendingResponse), Event.sleep 1000,
                        Event.roundTrip signedPoll (.ok finishedResponse)] })) := by
  decide

/-- Claim C6, amended. The location is extracted once, from the response passed in by the
caller.  When that fails the operation returns that error and the world is untouched.
Otherwise every request in the log of the operation, whenever it returns, is a `GET` whose
URL is parsed from the string of that one location, whatever the poll responses contained;
and pass by pass, also when the operation never returns: after `k` passes that ended in the
sleep the operation goes on as the loop on that same location, all requests logged so far
went there, and the next pass either fails before sending, which ends the operation with
that error, or sends exactly one more `GET` there. -/
theorem waitForResponse_polls_initial_location (env : Env) (c : Client) (r0 : Response)
    (waitTime : Duration) (w : World) :
    (∀ err, r0.Location env = .error err →
      ∀ fuel, waitForResponseWithTimer env c r0 waitTime fuel w = some ((none, some err), w)) ∧
    (∀ location, r0.Location env = .ok location →
      (∀ fuel res wf, waitForResponseWithTimer env c r0 waitTime fuel w = some (res, wf) →
        ∃ evs, wf.trace = w.trace ++ evs ∧ requestsGoTo env location evs) ∧
      (∀ k wk, loopState env c location waitTime k w = some wk →
        (∀ fuel, waitForResponseWithTimer env c r0 waitTime (k + fuel) w
          = pollLoop env c location waitTime fuel wk) ∧
        (∃ evs, wk.trace = w.trace ++ evs ∧ sentRequests evs = k ∧
          requestsGoTo env location evs) ∧
        ((∃ err wf, pollFetch env c location wk = (.error err, wf) ∧ wf.trace = wk.trace ∧
            ∀ fuel, k < fuel →
              waitForResponseWithTimer env c r0 waitTime fuel w = some ((none, some err), wf)) ∨
          (∃ req, req.Method = "GET" ∧ env.urlParse (env.urlString location) = .ok req.URL ∧
            (pollFetch env c location wk).2.trace
              = wk.trace ++ [Event.roundTrip req (env.roundTrip wk.doCalls req)])))) := by
  constructor
  · intro err herr fuel
    simp only [waitForResponseWithTimer, herr]
  · intro location hloc
    constructor
    · intro fuel res wf hrun
      simp only [waitForResponseWithTimer, hloc] at hrun
      exact pollLoop_trace env c location waitTime fuel w wf res hrun
    · intro k wk hk
      refine ⟨fun fuel => ?_, ?_, ?_⟩
      · simp only [waitForResponseWithTimer, hloc]
        exact pollLoop_loopState_add env c location waitTime k w wk hk fuel
      · obtain ⟨evs, he, hg⟩ := loopState_trace env c location waitTime k w wk hk
        have hc := (loopState_counts env c location waitTime k w wk hk).1
        rw [he, sentRequests_append] at hc
        exact ⟨evs, he, by omega, hg⟩
      · rcases pollFetch_cases env c location wk with
          ⟨err, _, hf⟩ | ⟨req, hN, ⟨err, _, hf⟩ | ⟨req1, _, hm, hu, hf⟩⟩
        · have hd : pollOnce env c location waitTime wk = .done (none, some err) wk := by
            simp [pollOnce, hf]
          exact Or.inl ⟨err, _, hf, rfl,
            waitForResponse_of_done env c r0 waitTime location k w wk _ _ hloc hk hd⟩
        · have hd : pollOnce env c location waitTime wk
              = .done (none, some err) { wk with clockReads := wk.clockReads + 2 } := by
            simp [pollOnce, hf]
          exact Or.inl ⟨err, _, hf, rfl,
            waitForResponse_of_done env c r0 waitTime location k w wk _ _ hloc hk hd⟩
        · have hreq := NewRequest_ok env "GET" _ req hN
          refine Or.inr ⟨req1, hm.trans hreq.1, hu ▸ hreq.2.1, ?_⟩
          rw [hf]
          simp [clientDo]

/-- Instance of the preceding theorem on a caller's response without `Location` (nothing is
sent) and on the script whose first response names `http://x/jobs/43`: the run returns with
both requests of its log sent to `http://x/jobs/42`, and after the first pass the operation
is the loop on `http://x/jobs/42`. -/
theorem waitForResponse_polls_initial_location_witness :
    (∀ fuel, waitForResponseWithTimer (pollEnv [.ok pendingElsewhere, .ok finishedResponse])
        demoClient (mkResponse 202 [] "") 1000 fuel world0
        = some ((none, some ErrNoLocation), world0)) ∧
    (∃ evs, (afterPoll (timeSleep 1000 (afterPoll world0 (.ok pendingElsewhere)))
          (.ok finishedResponse)).trace = world0.trace ++ evs ∧
      requestsGoTo (pollEnv [.ok pendingElsewhere, .ok finishedResponse]) (jobURL "42") evs) ∧
    ((∀ fuel, waitForResponseWithTimer (pollEnv [.ok pendingElsewhere, .ok finishedResponse])
          demoClient acceptedResponse 1000 (1 + fuel) world0
        = pollLoop (pollEnv [.ok pendingElsewhere, .ok finishedResponse]) demoClient
            (jobURL "42") 1000 fuel (timeSleep 1000 (afterPoll world0 (.ok pendingElsewhere)))) ∧
      (∃ evs, (timeSleep 1000 (afterPoll world0 (.ok pendingElsewhere))).trace
          = world0.trace ++ evs ∧ sentRequests evs = 1 ∧
        requestsGoTo (pollEnv [.ok pendingElsewhere, .ok finishedResponse]) (jobURL "42") evs) ∧
      ((∃ err wf, pollFetch (pollEnv [.ok pendingElsewhere, .ok finishedResponse]) demoClient
            (jobURL "42") (timeSleep 1000 (afterPoll world0 (.ok pendingElsewhere)))
            = (.error err, wf) ∧
          wf.trace = (timeSleep 1000 (afterPoll world0 (.ok pendingElsewhere))).trace ∧
          ∀ fuel, 1 < fuel →
            waitForResponseWithTimer (pollEnv [.ok pendingElsewhere, .ok finishedResponse])
              demoClient acceptedResponse 1000 fuel world0 = some ((none, some err), wf)) ∨
        (∃ req, req.Method = "GET" ∧
          (pollEnv [.ok pendingElsewhere, .ok finishedResponse]).urlParse
            ((pollEnv [.ok pendingElsewhere, .ok finishedResponse]).urlString (jobURL "42"))
            = .ok req.URL ∧
          (pollFetch (pollEnv [.ok pendingElsewhere, .ok finishedResponse]) demoClient
              (jobURL "42") (timeSleep 1000 (afterPoll world0 (.ok pendingElsewhere)))).2.trace
            = (timeSleep 1000 (afterPoll world0 (.ok pendingElsewhere))).trace
              ++ [Event.roundTrip req
                ((pollEnv [.ok pendingElsewhere, .ok finishedResponse]).roundTrip
                  (timeSleep 1000 (afterPoll world0 (.ok pendingElsewhere))).doCalls req)]))) :=
  ⟨(waitForResponse_polls_initial_location (pollEnv [.ok pendingElsewhere, .ok finishedResponse])
      demoClient (mkResponse 202 [] "") 1000 world0).1 ErrNoLocation (by decide),
   ((waitForResponse_polls_initial_location (pollEnv [.ok pendingElsewhere, .ok finishedResponse])
      demoClient acceptedResponse 1000 world0).2 (jobURL "42") (by decide)).1 5
      (some finishedResponse, none)
      (afterPoll (timeSleep 1000 (afterPoll world0 (.ok pendingElsewhere)))
        (.ok finishedResponse)) (by decide),
   ((waitForResponse_polls_initial_location (pollEnv [.ok pendingElsewhere, .ok finishedResponse])
      demoClient acceptedResponse 1000 world0).2 (jobURL "42") (by decide)).2 1
      (timeSleep 1000 (afterPoll world0 (.ok pendingElsewhere))) (by decide)⟩

/-- Claim C7. If the location of the caller's response cannot be extracted, the operation
returns that error and the world is untouched, so nothing is sent.  If, after `k` passes
that ended in the sleep, the next pass fails to build, to sign or to send its request, the
operation returns no response and exactly that error; the log then holds `k` completed
requests and `k` sleeps more than at the start and ends at the failure, with the failed
call as last entry when the failure was in sending. -/
theorem waitForResponse_no_retry (env : Env) (c : Client) (r0 : Response)
    (waitTime : Duration) (w : World) :
    (∀ err, r0.Location env = .error err →
      ∀ fuel, waitForResponseWithTimer env c r0 waitTime fuel w = some ((none, some err), w)) ∧
    (∀ location k wk err, r0.Location env = .ok location →
      loopState env c location waitTime k w = some wk →
      (NewRequest env "GET" (env.urlString location) = .error err ∨
        (∃ req, NewRequest env "GET" (env.urlString location) = .ok req ∧
          (setToken env c req wk).1 = some err) ∨
        (∃ req, NewRequest env "GET" (env.urlString location) = .ok req ∧
          (setToken env c req wk).1 = none ∧
          env.roundTrip wk.doCalls (setToken env c req wk).2.1 = .error err)) →
      ∃ wf, (∀ fuel, k < fuel →
          waitForResponseWithTimer env c r0 waitTime fuel w = some ((none, some err), wf)) ∧
        completedRequests wf.trace = completedRequests w.trace + k ∧
        sleeps wf.trace = sleeps w.trace + k ∧
        (wf.trace = wk.trace ∨ ∃ req, wf.trace = wk.trace ++ [Event.roundTrip req (.error err)])) := by
  constructor
  · intro err herr fuel
    simp only [waitForResponseWithTimer, herr]
  · intro location k wk err hloc hk hfail
    have hfetch : ∃ wf, pollFetch env c location wk = (.error err, wf) := by
      rcases hfail with hN | ⟨req, hN, hs⟩ | ⟨req, hN, hs, hrt⟩
      · exact ⟨wk, by simp [pollFetch, hN]⟩
      · rcases setToken_cases env c req wk with ⟨s2, _, ht⟩ | ⟨e2, _, ht⟩
        · rw [ht] at hs; simp at hs
        · rw [ht] at hs
          simp only [Option.some.injEq] at hs
          subst hs
          exact ⟨{ wk with clockReads := wk.clockReads + 2 }, by simp [pollFetch, hN, ht]⟩
      · rcases setToken_cases env c req wk with ⟨s2, _, ht⟩ | ⟨e2, _, ht⟩
        · rw [ht] at hrt
          simp only at hrt
          exact ⟨(pollFetch env c location wk).2, by simp [pollFetch, hN, ht, clientDo, hrt]⟩
        · rw [ht] at hs; simp at hs
    obtain ⟨wf, hf⟩ := hfetch
    have hd : pollOnce env c location waitTime wk = .done (none, some err) wf := by
      simp [pollOnce, hf]
    have hc := loopState_counts env c location waitTime k w wk hk
    have htr := pollFetch_error env c location wk wf err hf
    refine ⟨wf, waitForResponse_of_done env c r0 waitTime location k w wk wf _ hloc hk hd,
      ?_, ?_, htr⟩
    · rcases htr with h | ⟨req, h⟩
      · rw [h]; exact hc.2.1
      · rw [h, completedRequests_append, hc.2.1]
        simp [completedRequests]
    · rcases htr with h | ⟨req, h⟩
      · rw [h]; exact hc.2.2.1
      · rw [h, sleeps_append, hc.2.2.1]
        simp [sleeps]

/-- Instance of the preceding theorem on a caller's response without `Location`, and on
the script: pending with 200, then a connection reset: the second pass returns that error
after one completed request and one sleep. -/
theorem waitForResponse_no_retry_witness :
    (∀ fuel, waitForResponseWithTimer
        (pollEnv [.ok pendingResponse, .error "read: connection reset by peer"]) demoClient
        (mkResponse 202 [] "") 1000 fuel world0
        = some ((none, some ErrNoLocation), world0)) ∧
    (∃ wf, (∀ fuel, 1 < fuel →
        waitForResponseWithTimer
          (pollEnv [.ok pendingResponse, .error "read: connection reset by peer"]) demoClient
          acceptedResponse 1000 fuel world0
          = some ((none, some "read: connection reset by peer"), wf)) ∧
      completedRequests wf.trace = completedRequests world0.trace + 1 ∧
      sleeps wf.trace = sleeps world0.trace + 1 ∧
      (wf.trace = (timeSleep 1000 (afterPoll world0 (.ok pendingResponse))).trace ∨
        ∃ req, wf.trace = (timeSleep 1000 (afterPoll world0 (.ok pendingResponse))).trace
          ++ [Event.roundTrip req (.error "read: connection reset by peer")])) :=
  ⟨(waitForResponse_no_retry
      (pollEnv [.ok pendingResponse, .error "read: connection reset by peer"]) demoClient
      (mkResponse 202 [] "") 1000 world0).1 ErrNoLocation (by decide),
   (waitForResponse_no_retry
      (pollEnv [.ok pendingResponse, .error "read: connection reset by peer"]) demoClient
      acceptedResponse 1000 world0).2 (jobURL "42") 1
      (timeSleep 1000 (afterPoll world0 (.ok pendingResponse)))
      "read: connection reset by peer" (by decide) (by decide)
      (Or.inr (Or.inr ⟨unsignedPoll, by decide, by decide, by decide⟩))⟩

end Heketi
